import Mathlib

/-!
Shallow embedding of the departure board pipeline in src/trains.py of the
train-departure-display repository, together with proofs about the claims of
its specification.  Python values are modelled by an explicit value type,
Python exceptions by Except, and the network by an explicit parameter holding
the collapsed outcome of the HTTP exchange.  Numbers (Python int and float)
are modelled as rationals; Python bool is kept separate because str() renders
it differently, while isinstance checks against int accept it.
-/

set_option linter.unusedVariables false

/-- Python runtime errors that the embedded code can raise or catch.  The
overflowError constructor stands for the OverflowError and OSError family the
timestamp conversion raises beyond the platform range; no except clause of
trains.py catches either. -/
inductive PyErr where
  | attributeError : PyErr
  | typeError : PyErr
  | valueError : PyErr
  | overflowError : PyErr
deriving DecidableEq

/-- Python values of the shapes that reach this code (the JSON payload,
configuration values, and the values the code itself builds). -/
inductive PyVal where
  | none : PyVal
  | bool : Bool → PyVal
  | num : Rat → PyVal
  | str : String → PyVal
  | list : List PyVal → PyVal
  | dict : List (String × PyVal) → PyVal

/-- A departure record: the dict built per raw entry, keys in insertion order. -/
abbrev Rec := List (String × PyVal)

/-- Python truthiness, bool(v): None, False, zero, the empty string, the empty
list and the empty dict are falsy; everything else is truthy. -/
def pyTruthy : PyVal → Bool
  | .none => false
  | .bool b => b
  | .num q => decide (q ≠ 0)
  | .str s => decide (s ≠ "")
  | .list l => !l.isEmpty
  | .dict l => !l.isEmpty

/-- The dict.get(key, default) method: on a dict, the stored value or the
default; on any other value the attribute lookup raises AttributeError, as in
Python where None.get or (5).get do not exist. -/
def PyVal.get : PyVal → String → PyVal → Except PyErr PyVal
  | .dict l, k, d => .ok ((l.lookup k).getD d)
  | _, _, _ => .error .attributeError

/-- isinstance(x, (int, float)), returning the numeric value used after the
check; Python bool is a subclass of int, so True and False pass as 1 and 0. -/
def pyNumVal : PyVal → Option Rat
  | .num q => some q
  | .bool b => some (if b then 1 else 0)
  | _ => Option.none

/-- Lexicographic code point comparison of character lists: the order Python
uses when comparing strings, here as the sort key order. -/
def lexLe : List Char → List Char → Bool
  | [], _ => true
  | _ :: _, [] => false
  | a :: as, b :: bs =>
    if a.toNat < b.toNat then true
    else if b.toNat < a.toNat then false
    else lexLe as bs

/-- Remainder of the second list after the first, when the first is a prefix. -/
def stripPrefixL : List Char → List Char → Option (List Char)
  | [], s => some s
  | _ :: _, [] => Option.none
  | a :: as, c :: cs => if a = c then stripPrefixL as cs else Option.none

/-- Fuel driven worker for pySplit: scan left to right, splitting at leftmost
non-overlapping occurrences of the separator, as Python str.split(sep) does
for a non-empty separator.  Fuel length s + 1 always suffices because every
step consumes at least one character of s. -/
def splitOnFuel (sep : List Char) : Nat → List Char → List Char → List (List Char)
  | 0, s, cur => [cur.reverse ++ s]
  | n + 1, s, cur =>
    match stripPrefixL sep s with
    | some rest => cur.reverse :: splitOnFuel sep n rest []
    | Option.none =>
      match s with
      | [] => [cur.reverse]
      | c :: cs => splitOnFuel sep n cs (c :: cur)

/-- Python s.split(sep) for a non-empty separator. -/
def pySplit (sep s : String) : List String :=
  (splitOnFuel sep.toList (s.toList.length + 1) s.toList []).map String.mk

/-- Python substring membership, sub in s, for a non-empty sub: the split on
sub has more than one part exactly when sub occurs in s. -/
def pyContains (sub s : String) : Bool := decide ((pySplit sub s).length ≠ 1)

/-- Characters Python str.strip() removes by default (the common whitespace
subset; more exotic Unicode whitespace never reaches this code because the
route cleanup replaces the non-breaking space first). -/
def isPySpace (c : Char) : Bool :=
  c == ' ' || c == '\t' || c == '\n' || c == '\r' ||
    c == Char.ofNat 11 || c == Char.ofNat 12 || c == '\u00A0'

/-- Python s.strip(): drop leading and trailing whitespace. -/
def pyStrip (s : String) : String :=
  String.mk (((s.toList.dropWhile isPySpace).reverse.dropWhile isPySpace).reverse)

/-- One pass character replacement for the route cleanup: the non-breaking
space becomes a space and the right arrow glyph becomes the ASCII arrow.  The
two replace calls of the source commute into one pass because each pattern is
a single character and neither replacement output contains the other pattern. -/
def cleanRouteChars : List Char → List Char
  | [] => []
  | c :: cs =>
    (if c = '\u00A0' then [' ']
     else if c = '\u2192' then ['-', '>']
     else [c]) ++ cleanRouteChars cs

/-- The route cleanup of trains.py line 122: replace the non-breaking space by
a space, replace the right arrow glyph by the ASCII arrow, then strip. -/
def normalizeRoute (s : String) : String :=
  pyStrip (String.mk (cleanRouteChars s.toList))

/-- Python str.isdigit: non-empty and every character a digit (ASCII digits;
the further Unicode digit categories Python accepts are not exercised by any
claim). -/
def pyIsdigit (s : String) : Bool := !s.toList.isEmpty && s.toList.all Char.isDigit

/-- re.sub(r"\D", "", s): keep only the digit characters of s. -/
def stripNonDigits (s : String) : String := String.mk (s.toList.filter Char.isDigit)

/-- Floor of a rational: Euclidean division of the numerator by the positive
denominator. -/
def ratFloor (q : Rat) : Int := q.num.ediv q.den

/-- Truncation toward zero: the behavior of Python int() on a number. -/
def ratTrunc (q : Rat) : Int := if q < 0 then -ratFloor (-q) else ratFloor q

/-- Digit list to number, most significant first. -/
def digitsToNat (l : List Char) : Nat := l.foldl (fun acc c => acc * 10 + (c.toNat - 48)) 0

/-- Python int(string): optional surrounding whitespace, an optional sign, one
or more digits; anything else raises ValueError (ASCII digit model). -/
def parsePyInt (s : String) : Option Int :=
  let t := (pyStrip s).toList
  let signAndDigits : Bool × List Char :=
    match t with
    | '-' :: rest => (true, rest)
    | '+' :: rest => (false, rest)
    | rest => (false, rest)
  if signAndDigits.snd.isEmpty || !signAndDigits.snd.all Char.isDigit then Option.none
  else
    some (if signAndDigits.fst then -(digitsToNat signAndDigits.snd : Int)
          else (digitsToNat signAndDigits.snd : Int))

/-- Python int(x): numbers truncate toward zero, bools map to 0 and 1, strings
parse or raise ValueError, every other type raises TypeError. -/
def pyToInt : PyVal → Except PyErr Int
  | .num q => .ok (ratTrunc q)
  | .bool b => .ok (if b then 1 else 0)
  | .str s =>
    match parsePyInt s with
    | some n => .ok n
    | Option.none => .error .valueError
  | _ => .error .typeError

/-- Python str(x) for the values that can reach it in this code.  Integral
numbers render like Python ints; non-integral numbers and containers are
approximated, since no code path of the claims renders them. -/
def pyStr : PyVal → String
  | .none => "None"
  | .bool b => if b then "True" else "False"
  | .num q => if q.den = 1 then toString q.num else toString q.num ++ "/" ++ toString q.den
  | .str s => s
  | .list _ => "[...]"
  | .dict _ => "\x7b...\x7d"

/-- Zero padded two digit rendering, as strftime produces for %H and %M. -/
def padTwo (n : Nat) : String := if n < 10 then "0" ++ toString n else toString n

/-- The %H:%M rendering of a whole epoch second count, at the UTC clock basis
the model fixes for the process. -/
def hhmmRender (s : Int) : String :=
  let d := (s.emod 86400).toNat
  padTwo (d / 3600) ++ ":" ++ padTwo (d % 3600 / 60)

/-- Epoch second of 0001-01-01T00:00:00, the smallest datetime can hold. -/
def minEpoch : Int := -62135596800

/-- Epoch second of 10000-01-01T00:00:00, the first instant datetime rejects. -/
def maxEpoch : Int := 253402300800

/-- First epoch second the platform localtime can convert: the start of year
-2147481748 (C int tm_year = INT_MIN), proleptic Gregorian at the UTC clock
basis of the model.  Below it the conversion fails with an error the code
does not catch. -/
def localtimeMin : Int := -67768040609740800

/-- Last epoch second the platform localtime can convert: the end of year
2147485547 (C int tm_year = INT_MAX), proleptic Gregorian at UTC.  Beyond it
localtime fails with OSError, and beyond the 64-bit time_t span the
conversion to time_t itself fails with OverflowError; neither is caught by
the except ValueError of trains.py line 103. -/
def localtimeMax : Int := 67768036191676799

/-- datetime.fromtimestamp(t).strftime("%H:%M") on 64-bit Linux at UTC: the
floor of t is the whole epoch second.  Three outcomes: a timestamp whose year
lies in 1..9999 converts and renders; a timestamp the platform localtime can
still represent but whose year falls outside 1..9999 raises ValueError from
the datetime constructor, which trains.py line 103 catches; a timestamp
beyond the localtime range (and a fortiori beyond time_t) raises OSError or
OverflowError, which nothing in trains.py catches. -/
def fromtimestampHHMM (q : Rat) : Except PyErr String :=
  if minEpoch ≤ ratFloor q ∧ ratFloor q < maxEpoch then .ok (hhmmRender (ratFloor q))
  else if localtimeMin ≤ ratFloor q ∧ ratFloor q ≤ localtimeMax then .error .valueError
  else .error .overflowError

/-- joinWithSpaces of trains.py lines 9-14: join with single spaces, dropping
falsy arguments (None and the empty string), as filter(None, args) does. -/
def joinWithSpaces (args : List (Option String)) : String :=
  String.intercalate " " ((args.filterMap id).filter (fun s => decide (s ≠ "")))

/-- Section A of the loop (trains.py lines 97-106): the aimed departure time
from the raw timestamp field.  The truthiness test comes first, so a
timestamp of zero falls into the else branch; the except clause of line 103
catches exactly ValueError, so the OverflowError and OSError of an
unconvertible timestamp propagate and abort the whole entry. -/
def aimedOf (timestamp : PyVal) : Except PyErr String :=
  if pyTruthy timestamp then
    match pyNumVal timestamp with
    | some q =>
      match fromtimestampHHMM q with
      | .ok s => .ok s
      | .error .valueError => .ok "Bad Time"
      | .error e => .error e
    | Option.none => .ok "--:--"
  else .ok "--:--"

/-- Section B (lines 108-114): the delay status from the raw delay field. -/
def expectedOf (delay : PyVal) : String :=
  match pyNumVal delay with
  | some q => if 0 < q then "Late " ++ toString (ratTrunc q) ++ "m" else "On time"
  | Option.none => "On time"

/-- Section C (lines 116-137): the destination fallback chain, applied to the
destination descriptor name and the already cleaned route. -/
def destOf (destName : PyVal) (route : String) : PyVal :=
  if pyTruthy destName then destName
  else if decide (route ≠ "") then
    if pyContains " - " route then .str (pyStrip ((pySplit " - " route).getLastD ""))
    else if pyContains "->" route then .str (pyStrip ((pySplit "->" route).getLastD ""))
    else .str (pyStrip route)
  else .str "Destination Unknown"

/-- Section D (lines 139-142): the platform string; None yields the empty
string, anything else its str() rendering. -/
def platformOf (plat : PyVal) : PyVal :=
  match plat with
  | .none => .str ""
  | p => .str (pyStr p)

/-- Section F (lines 148-155): train number cleanup; strip non-digits, fall
back to the raw rendering, then to the sentinel. -/
def trainNumOf (trainV : PyVal) : String :=
  let rawTrainNum := pyStr trainV
  let cleaned := stripNonDigits rawTrainNum
  if decide (cleaned ≠ "") then cleaned
  else if decide (rawTrainNum ≠ "") then rawTrainNum
  else "N/A"

/-- Section G (lines 157-162): the calling at summary line; the route segment
is included only when the cleaned route is non-empty. -/
def callingAtOf (trainV destName : PyVal) (route : String) : String :=
  joinWithSpaces
    [some ("Train " ++ trainNumOf trainV ++ " to " ++ pyStr (destOf destName route) ++ "."),
     if decide (route ≠ "") then some ("Route: " ++ route ++ ".") else Option.none,
     some "Ukrainian Railways."]

/-- One iteration of the departure loop of process_uz_data (trains.py lines
94 to 164), building the seven key record dict for one raw entry out of the
section functions above.  The three spots where Python can raise inside the
loop (an unconvertible timestamp, attribute access on a non-dict destination
value, string methods on a non-string route value) surface as Except errors,
in source order. -/
def processItem (item : PyVal) : Except PyErr Rec := do
  let timestamp ← item.get "time" .none
  let aimed ← aimedOf timestamp
  let delay ← item.get "delay_minutes" .none
  let destObj ← item.get "destination" (.dict [])
  let destName ← destObj.get "name" .none
  let routeRaw ← item.get "route" (.str "")
  let route ← match routeRaw with
    | .str s => Except.ok (normalizeRoute s)
    | _ => Except.error PyErr.attributeError
  let plat ← item.get "platform" .none
  let trainV ← item.get "train" (.str "")
  Except.ok
    [("aimed_departure_time", .str aimed),
     ("expected_departure_time", .str (expectedOf delay)),
     ("destination_name", destOf destName route),
     ("platform", platformOf plat),
     ("carriages", .num 0),
     ("operator", .str "UZ"),
     ("calling_at_list", .str (callingAtOf trainV destName route))]

/-- The sort key lambda of line 168: x["aimed_departure_time"].  processItem
always stores a string there, so the defensive default is never exercised. -/
def aimedKey (r : Rec) : String :=
  match r.lookup "aimed_departure_time" with
  | some (.str s) => s
  | _ => ""

/-- Ordering used by the sort: Python string comparison of the aimed time. -/
def recLe (a b : Rec) : Prop := lexLe (aimedKey a).toList (aimedKey b).toList = true

instance : DecidableRel recLe := fun _ _ => instDecidableEqBool _ _

/-- list.sort(key=...) of lines 166-172.  CPython uses a stable sort, and a
stable sort is uniquely determined by the key order, so the structurally
recursive insertion sort produces the very list the source produces.  String
keys always compare, so the except TypeError arm never fires. -/
def sortServices (l : List Rec) : List Rec := List.insertionSort recLe l

/-- The for loop of process_uz_data over raw_departures: records accumulate in
order; an exception raised mid loop propagates, as in Python. -/
def processList : List PyVal → Except PyErr (List Rec)
  | [] => .ok []
  | it :: rest => do
    let r ← processItem it
    let rs ← processList rest
    .ok (r :: rs)

/-- process_uz_data (trains.py lines 72-174).  The station name stays a PyVal
because the payload may supply a non-string name, which the source passes
through unchanged. -/
def process_uz_data (json_data : PyVal) : Except PyErr (List Rec × PyVal) :=
  if pyTruthy json_data = false then .ok ([], .str "Connection Failed")
  else do
    let stationObj ← json_data.get "station" (.dict [])
    let station_name ← stationObj.get "name" (.str "UZ Station (Unknown)")
    let rawDepartures ← json_data.get "departures" (.list [])
    match rawDepartures with
    | .list items => do
      let recs ← processList items
      Except.ok (sortServices recs, station_name)
    | _ => Except.ok ([], station_name)

/-- get_uz_board (trains.py lines 18-68), the network abstracted: net is the
collapsed outcome of the HTTP exchange (some payload for a 200 response with
decodable JSON, none for a timeout, transport error, non-200 status or an
undecodable body; the source collapses all of those to None).  The Bool
records whether the upstream request was issued at all. -/
def get_uz_board (net : Option PyVal) (station_id : PyVal) : Option PyVal × Bool :=
  match station_id with
  | .str s => if pyIsdigit s then (net, true) else (Option.none, false)
  | _ => (Option.none, false)

/-- The rows coercion of lines 197-200: int(rows), defaulting to 10 when
int() raises TypeError or ValueError. -/
def rowLimit (rows : PyVal) : Int :=
  match pyToInt rows with
  | .ok n => n
  | .error _ => 10

/-- Python slice l[:n]: a nonnegative n keeps the first n entries, a negative
n keeps all but the last entries, stop = max(0, len + n). -/
def pySliceTo {α : Type} (l : List α) (n : Int) : List α :=
  if 0 ≤ n then l.take n.toNat else l.take (((l.length : Int) + n).toNat)

/-- loadDeparturesForStation (trains.py lines 177-203).  apiKey is unused, as
in the source.  Besides the returned pair (or the propagated exception) the
model returns whether get_uz_board was invoked. -/
def loadDeparturesForStation (net : Option PyVal) (journeyConfig apiKey rows : PyVal) :
    Except PyErr (List Rec × PyVal) × Bool :=
  match journeyConfig with
  | .dict cfg =>
    let station_id := (cfg.lookup "departureStation").getD .none
    if pyTruthy station_id = false then (.ok ([], .str "Config Error"), false)
    else
      let fetched := get_uz_board net station_id
      let json_data : PyVal :=
        match fetched.fst with
        | some v => v
        | Option.none => .none
      match process_uz_data json_data with
      | .ok (departures, station_name) =>
        (.ok (pySliceTo departures (rowLimit rows), station_name), true)
      | .error e => (.error e, true)
  | _ => (.ok ([], .str "Config Error"), false)

/-- Field of the record an entry produces, PyVal.none when the entry raised or
the key is absent.  Used to state claims about single derived fields. -/
def recField (item : PyVal) (k : String) : PyVal :=
  match processItem item with
  | .ok r => (r.lookup k).getD .none
  | .error _ => .none

/-- Test entry carrying a destination descriptor name and a route string. -/
def entryDR (nm rt : String) : PyVal :=
  .dict [("destination", .dict [("name", .str nm)]), ("route", .str rt)]

/-- The keys of every record processItem builds, in insertion order. -/
def recKeys : List String :=
  ["aimed_departure_time", "expected_departure_time", "destination_name", "platform",
   "carriages", "operator", "calling_at_list"]

/-- Entry shape under which the per entry derivations cannot raise: the entry
is a dict, its destination field (when present) holds a dict, its route field
(when present) holds a string, and its time field derives without an uncaught
error (true in particular for every absent, non-numeric, or platform
convertible timestamp; false only beyond the localtime and time_t range). -/
def wellShapedEntry (item : PyVal) : Prop :=
  ∃ l, item = PyVal.dict l ∧
    (∀ v, l.lookup "destination" = some v → ∃ dl, v = PyVal.dict dl) ∧
    (∀ v, l.lookup "route" = some v → ∃ s, v = PyVal.str s) ∧
    (∃ a, aimedOf ((l.lookup "time").getD .none) = Except.ok a)

/-- Payload shape under which normalization cannot raise: falsy, or a dict
whose station field (when present) holds a dict and whose departures field
(when it holds a list) contains only well shaped entries. -/
def wellShapedBoard (v : PyVal) : Prop :=
  pyTruthy v = false ∨
  ∃ l, v = PyVal.dict l ∧
    (∀ w, l.lookup "station" = some w → ∃ sl, w = PyVal.dict sl) ∧
    (∀ items, l.lookup "departures" = some (.list items) → ∀ it ∈ items, wellShapedEntry it)

/-- The code point order on character lists is total. -/
theorem lexLe_total (a b : List Char) : lexLe a b = true ∨ lexLe b a = true := by
  induction a generalizing b with
  | nil => left; rfl
  | cons x xs ih =>
    cases b with
    | nil => right; rfl
    | cons y ys =>
      rcases Nat.lt_trichotomy x.toNat y.toNat with h | h | h
      · left; simp [lexLe, h]
      · have h1 : ¬ x.toNat < y.toNat := by omega
        have h2 : ¬ y.toNat < x.toNat := by omega
        rcases ih ys with h3 | h3
        · left; simp [lexLe, h1, h2, h3]
        · right; simp [lexLe, h1, h2, h3]
      · right; simp [lexLe, h]

/-- The code point order on character lists is transitive. -/
theorem lexLe_trans {a b c : List Char} (h1 : lexLe a b = true) (h2 : lexLe b c = true) :
    lexLe a c = true := by
  induction a generalizing b c with
  | nil => rfl
  | cons x xs ih =>
    cases b with
    | nil => simp [lexLe] at h1
    | cons y ys =>
      cases c with
      | nil => simp [lexLe] at h2
      | cons z zs =>
        by_cases hxy : x.toNat < y.toNat
        · by_cases hyz : y.toNat < z.toNat
          · have : x.toNat < z.toNat := Nat.lt_trans hxy hyz
            simp [lexLe, this]
          · by_cases hzy : z.toNat < y.toNat
            · simp [lexLe, hyz, hzy] at h2
            · have he : y.toNat = z.toNat := by omega
              have : x.toNat < z.toNat := he ▸ hxy
              simp [lexLe, this]
        · by_cases hyx : y.toNat < x.toNat
          · simp [lexLe, hxy, hyx] at h1
          · have hxy2 : x.toNat = y.toNat := by omega
            have h1s : lexLe xs ys = true := by simpa [lexLe, hxy, hyx] using h1
            by_cases hyz : y.toNat < z.toNat
            · have : x.toNat < z.toNat := hxy2 ▸ hyz
              simp [lexLe, this]
            · by_cases hzy : z.toNat < y.toNat
              · simp [lexLe, hyz, hzy] at h2
              · have h2s : lexLe ys zs = true := by simpa [lexLe, hyz, hzy] using h2
                have hxz : ¬ x.toNat < z.toNat := by omega
                have hzx : ¬ z.toNat < x.toNat := by omega
                simp [lexLe, hxz, hzx, ih h1s h2s]

instance : IsTotal Rec recLe :=
  ⟨fun a b => lexLe_total (aimedKey a).toList (aimedKey b).toList⟩

instance : IsTrans Rec recLe :=
  ⟨fun _ _ _ h1 h2 => lexLe_trans h1 h2⟩

/-- A string of digits is in particular non-empty. -/
theorem pyIsdigit_ne_empty {s : String} (h : pyIsdigit s = true) : s ≠ "" := by
  intro he
  subst he
  simp [pyIsdigit] at h

/-- C7: when the caller supplied configuration is not a dict, or its
departureStation field is missing or empty (Python: falsy), the loader
returns exactly the pair of the empty list and the station name sentinel
Config Error, and get_uz_board is never invoked. -/
theorem c7_config_error_short_circuit (net : Option PyVal) (cfg apiKey rows : PyVal)
    (h : ∀ l, cfg = PyVal.dict l →
      pyTruthy ((l.lookup "departureStation").getD .none) = false) :
    loadDeparturesForStation net cfg apiKey rows
      = (.ok ([], .str "Config Error"), false) := by
  cases cfg with
  | dict l => simp [loadDeparturesForStation, h l rfl]
  | none => rfl
  | bool b => rfl
  | num q => rfl
  | str s => rfl
  | list xs => rfl

/-- C7 witness: a dict without the station field, and a non-dict config. -/
theorem c7_config_error_short_circuit_witness :
    loadDeparturesForStation (some (.dict [("departures", .list [])]))
        (.dict [("x", .num 1)]) .none (.num 5)
      = (.ok ([], .str "Config Error"), false) ∧
    loadDeparturesForStation (some (.dict [])) (.str "oops") .none (.num 5)
      = (.ok ([], .str "Config Error"), false) :=
  ⟨c7_config_error_short_circuit _ _ _ _ (fun l hl => by cases hl; rfl),
   c7_config_error_short_circuit _ _ _ _ (fun l hl => by cases hl)⟩

/-- C8: a falsy payload (the None of a failed fetch, and likewise an empty
payload) normalizes to the empty record list with station name Connection
Failed; and end to end, a failed fetch under a valid configuration surfaces
exactly that pair to the caller. -/
theorem c8_connection_failed (v : PyVal) (cfg : List (String × PyVal)) (s : String)
    (apiKey rows : PyVal)
    (hv : pyTruthy v = false)
    (hs : cfg.lookup "departureStation" = some (.str s))
    (hd : pyIsdigit s = true) :
    process_uz_data v = .ok ([], .str "Connection Failed") ∧
    loadDeparturesForStation Option.none (.dict cfg) apiKey rows
      = (.ok ([], .str "Connection Failed"), true) := by
  constructor
  · simp [process_uz_data, hv]
  · have hne : s ≠ "" := pyIsdigit_ne_empty hd
    simp [loadDeparturesForStation, hs, pyTruthy, hne, get_uz_board, hd,
      process_uz_data, pySliceTo]

/-- C8 witness: the empty dict payload, and a timed out fetch with a valid
station configuration and an unparseable rows argument. -/
theorem c8_connection_failed_witness :
    process_uz_data (.dict []) = .ok ([], .str "Connection Failed") ∧
    loadDeparturesForStation Option.none (.dict [("departureStation", .str "22200001")])
        .none (.str "abc")
      = (.ok ([], .str "Connection Failed"), true) :=
  c8_connection_failed (.dict []) [("departureStation", .str "22200001")] "22200001"
    .none (.str "abc") rfl rfl (by decide)

/-- C6 counterexample: abc is a non-empty token, yet get_uz_board never
issues the upstream request for it: the validation at trains.py line 25
rejects any string containing a non-digit character, short-circuiting to the
failure result None. -/
theorem c6_counterexample :
    ("abc" : String) ≠ "" ∧
    get_uz_board (some (.dict [("a", .num 1)])) (.str "abc") = (Option.none, false) :=
  ⟨by decide, rfl⟩

/-- C6 amended: the upstream request is issued exactly when the station id is
a string consisting entirely of digits (hence non-empty); every other token
short-circuits to the failure result None without issuing a request. -/
theorem c6_amended_digit_gate (net : Option PyVal) (sid : PyVal) :
    ((get_uz_board net sid).snd = true ↔ ∃ s, sid = .str s ∧ pyIsdigit s = true) ∧
    ((get_uz_board net sid).snd = false → (get_uz_board net sid).fst = Option.none) ∧
    (∀ s, sid = .str s → pyIsdigit s = true → get_uz_board net sid = (net, true)) := by
  cases sid with
  | str s =>
    by_cases h : pyIsdigit s = true
    · refine ⟨?_, ?_, ?_⟩
      · simp [get_uz_board, h]
      · simp [get_uz_board, h]
      · intro t ht hd
        cases ht
        simp [get_uz_board, h]
    · refine ⟨?_, ?_, ?_⟩
      · simp only [get_uz_board, if_neg h]
        constructor
        · intro hf
          simp at hf
        · rintro ⟨t, ht, hd⟩
          cases ht
          exact absurd hd h
      · intro _
        simp [get_uz_board, h]
      · intro t ht hd
        cases ht
        exact absurd hd h
  | none => exact ⟨by simp [get_uz_board], by simp [get_uz_board], by intro t ht; cases ht⟩
  | bool b => exact ⟨by simp [get_uz_board], by simp [get_uz_board], by intro t ht; cases ht⟩
  | num q => exact ⟨by simp [get_uz_board], by simp [get_uz_board], by intro t ht; cases ht⟩
  | list xs => exact ⟨by simp [get_uz_board], by simp [get_uz_board], by intro t ht; cases ht⟩
  | dict l => exact ⟨by simp [get_uz_board], by simp [get_uz_board], by intro t ht; cases ht⟩

/-- C6 amended witness: an all digit token passes the gate and the request is
issued, returning whatever the network returned. -/
theorem c6_amended_digit_gate_witness :
    get_uz_board (some (.dict [("departures", .list [])])) (.str "123")
      = (some (.dict [("departures", .list [])]), true) :=
  (c6_amended_digit_gate (some (.dict [("departures", .list [])])) (.str "123")).2.2
    "123" rfl (by decide)

/-- C3 counterexample: rows = -1 parses as the integer -1, which is not a
positive integer, so the claim demands the default limit 10 and hence the
whole normalized sequence; but with two normalized records the Python slice
with a negative stop returns one record, not two. -/
theorem c3_counterexample :
    (Except.map (fun p => p.fst.length)
      (loadDeparturesForStation (some (.dict [("departures", .list [.dict [], .dict []])]))
        (.dict [("departureStation", .str "1")]) .none (.num (-1))).fst) = .ok 1 ∧
    (1 : Nat) ≠ 2 :=
  ⟨rfl, by decide⟩

/-- C3 amended: when int(rows) raises, the limit defaults to 10; a limit that
parses to a nonnegative integer keeps exactly the first n records in their
original order, the whole sequence when n is at least its length; a negative
parsed limit follows Python slice semantics instead of defaulting (this is
where the claim needed amending); and the concrete cases of the claim hold. -/
theorem c3_amended_row_limit (rows : PyVal) (e : PyErr) (l : List Rec) (n : Int) :
    (pyToInt rows = .error e → rowLimit rows = 10) ∧
    (0 ≤ n → pySliceTo l n = l.take n.toNat) ∧
    ((l.length : Int) ≤ n → pySliceTo l n = l) ∧
    (n < 0 → pySliceTo l n = l.take (((l.length : Int) + n).toNat)) ∧
    rowLimit (.str "abc") = 10 ∧
    (∀ r : Rec, pySliceTo (List.replicate 15 r) 5 = List.replicate 5 r) := by
  refine ⟨?_, ?_, ?_, ?_, rfl, ?_⟩
  · intro h
    simp [rowLimit, h]
  · intro h
    simp [pySliceTo, h]
  · intro h
    have h0 : (0 : Int) ≤ n := le_trans (Int.natCast_nonneg _) h
    have hlen : l.length ≤ n.toNat := by omega
    simp [pySliceTo, h0, List.take_of_length_le hlen]
  · intro h
    have h0 : ¬ (0 : Int) ≤ n := by omega
    simp [pySliceTo, h0]
  · intro r
    simp [pySliceTo, List.take_replicate]

/-- C3 amended witness: an unparseable rows argument defaults to 10, and a
limit of 3 on a two record list returns the whole list. -/
theorem c3_amended_row_limit_witness :
    rowLimit (.str "abc") = 10 ∧ pySliceTo ([[], []] : List Rec) 3 = [[], []] :=
  ⟨(c3_amended_row_limit (.str "abc") .valueError [] 0).2.2.2.2.1,
   (c3_amended_row_limit (.str "abc") .valueError [[], []] 3).2.2.1 (by decide)⟩

/-- The record built from an entry carrying only a delay field exposes the
section B derivation directly. -/
theorem recField_delay (d : PyVal) :
    recField (.dict [("delay_minutes", d)]) "expected_departure_time"
      = .str (expectedOf d) := rfl

/-- The destination field of the canonical test entry is exactly the section
C chain applied to the raw descriptor name and the cleaned route. -/
theorem recField_entryDR (nm rt : String) :
    recField (entryDR nm rt) "destination_name" = destOf (.str nm) (normalizeRoute rt) := rfl

/-- C5 counterexample: one half is a numeric, positive delay, yet the status
renders Late 0m, which the claim rules out: int() truncates one half to zero,
so the rendered minute count is not a positive integer. -/
theorem c5_counterexample :
    (0 : Rat) < mkRat 1 2 ∧
    recField (.dict [("delay_minutes", .num (mkRat 1 2))]) "expected_departure_time"
      = .str "Late 0m" :=
  ⟨by decide, rfl⟩

/-- C5 amended: a positive numeric delay renders Late int(d) m, where the
count is a nonnegative integer that is zero exactly when the delay is under
one minute; zero, negative, missing and non-numeric delays all render On
time, so a negative count is never rendered. -/
theorem c5_amended_delay_status (d : PyVal) (q : Rat) :
    (pyNumVal d = some q → 0 < q →
      recField (.dict [("delay_minutes", d)]) "expected_departure_time"
        = .str ("Late " ++ toString (ratTrunc q) ++ "m") ∧ 0 ≤ ratTrunc q) ∧
    (pyNumVal d = some q → q ≤ 0 →
      recField (.dict [("delay_minutes", d)]) "expected_departure_time" = .str "On time") ∧
    (pyNumVal d = Option.none →
      recField (.dict [("delay_minutes", d)]) "expected_departure_time" = .str "On time") ∧
    recField (.dict []) "expected_departure_time" = .str "On time" := by
  refine ⟨?_, ?_, ?_, rfl⟩
  · intro hn hq
    constructor
    · rw [recField_delay]
      simp [expectedOf, hn, hq]
    · have hq0 : ¬ q < 0 := not_lt.mpr (le_of_lt hq)
      have hnum : (0 : Int) ≤ q.num := Rat.num_nonneg.mpr (le_of_lt hq)
      unfold ratTrunc ratFloor
      rw [if_neg hq0]
      exact Int.ediv_nonneg hnum (Int.natCast_nonneg _)
  · intro hn hq
    rw [recField_delay]
    simp [expectedOf, hn, not_lt.mpr hq]
  · intro hn
    rw [recField_delay]
    simp [expectedOf, hn]

/-- C5 amended witness: delay 5 renders Late 5m, delay -3 and a string delay
render On time. -/
theorem c5_amended_delay_status_witness :
    recField (.dict [("delay_minutes", .num 5)]) "expected_departure_time" = .str "Late 5m" ∧
    recField (.dict [("delay_minutes", .num (-3))]) "expected_departure_time"
      = .str "On time" ∧
    recField (.dict [("delay_minutes", .str "7")]) "expected_departure_time"
      = .str "On time" :=
  ⟨(((c5_amended_delay_status (.num 5) 5).1 rfl (by decide)).1).trans rfl,
   (c5_amended_delay_status (.num (-3)) (-3)).2.1 rfl (by decide),
   (c5_amended_delay_status (.str "7") 0).2.2.1 rfl⟩

/-- C1: the destination fallback chain, in order: a truthy (present,
non-empty) destination descriptor name always wins, whatever the route; else
the route is cleaned (non-breaking space to space, arrow glyph to the ASCII
arrow) and split on the recognized separator, the spaced dash checked before
the ASCII arrow, taking the trailing stripped segment; a route without a
recognized separator is used whole, stripped; no name and no route yields the
sentinel.  The three separator variants of the claim all yield Lviv. -/
theorem c1_destination_fallback (nm rt : String) :
    (nm ≠ "" → recField (entryDR nm rt) "destination_name" = .str nm) ∧
    (nm = "" →
      recField (entryDR nm rt) "destination_name" =
        (if normalizeRoute rt = "" then .str "Destination Unknown"
         else if pyContains " - " (normalizeRoute rt) then
           .str (pyStrip ((pySplit " - " (normalizeRoute rt)).getLastD ""))
         else if pyContains "->" (normalizeRoute rt) then
           .str (pyStrip ((pySplit "->" (normalizeRoute rt)).getLastD ""))
         else .str (pyStrip (normalizeRoute rt)))) ∧
    recField (.dict []) "destination_name" = .str "Destination Unknown" ∧
    recField (entryDR "" "Kyiv - Lviv") "destination_name" = .str "Lviv" ∧
    recField (entryDR "" "Kyiv→Lviv") "destination_name" = .str "Lviv" ∧
    recField (entryDR "" "Kyiv->Lviv") "destination_name" = .str "Lviv" := by
  refine ⟨?_, ?_, rfl, rfl, rfl, rfl⟩
  · intro h
    rw [recField_entryDR]
    simp [destOf, pyTruthy, h]
  · rintro rfl
    rw [recField_entryDR]
    by_cases hr : normalizeRoute rt = ""
    · simp [destOf, pyTruthy, hr]
    · simp [destOf, pyTruthy, hr]

/-- C1 witness: an explicit name wins over a separated route; a route with
two separators yields the segment after the last one; a separator free route
is used whole, stripped. -/
theorem c1_destination_fallback_witness :
    recField (entryDR "Odesa" "Kyiv - Lviv") "destination_name" = .str "Odesa" ∧
    recField (entryDR "" "A - B - C") "destination_name" = .str "C" ∧
    recField (entryDR "" "  Kharkiv  ") "destination_name" = .str "Kharkiv" :=
  ⟨(c1_destination_fallback "Odesa" "Kyiv - Lviv").1 (by decide),
   ((c1_destination_fallback "" "A - B - C").2.1 rfl).trans rfl,
   ((c1_destination_fallback "" "  Kharkiv  ").2.1 rfl).trans rfl⟩

/-- Normal form of processItem on a dict entry whose timestamp derives
without an uncaught error, whose destination field holds a dict (or is
absent) and whose route field holds a string (or is absent). -/
theorem processItem_dict (l dl : List (String × PyVal)) (rs a : String)
    (ha : aimedOf ((l.lookup "time").getD .none) = Except.ok a)
    (hd : (l.lookup "destination").getD (.dict []) = PyVal.dict dl)
    (hr : (l.lookup "route").getD (.str "") = PyVal.str rs) :
    processItem (.dict l) = Except.ok
      [("aimed_departure_time", .str a),
       ("expected_departure_time", .str (expectedOf ((l.lookup "delay_minutes").getD .none))),
       ("destination_name", destOf ((dl.lookup "name").getD .none) (normalizeRoute rs)),
       ("platform", platformOf ((l.lookup "platform").getD .none)),
       ("carriages", .num 0),
       ("operator", .str "UZ"),
       ("calling_at_list",
        .str (callingAtOf ((l.lookup "train").getD (.str ""))
          ((dl.lookup "name").getD .none) (normalizeRoute rs)))] := by
  simp [processItem, PyVal.get, ha, hd, hr, bind, Except.bind]

/-- A well shaped entry is processed without an exception. -/
theorem processItem_ok {item : PyVal} (h : wellShapedEntry item) :
    ∃ r, processItem item = Except.ok r := by
  obtain ⟨l, rfl, hdest, hroute, a, ha⟩ := h
  have hd : ∃ dl, (l.lookup "destination").getD (.dict []) = PyVal.dict dl := by
    cases hld : l.lookup "destination" with
    | none => exact ⟨[], rfl⟩
    | some v =>
      obtain ⟨dl, rfl⟩ := hdest v hld
      exact ⟨dl, rfl⟩
  have hr : ∃ rs, (l.lookup "route").getD (.str "") = PyVal.str rs := by
    cases hlr : l.lookup "route" with
    | none => exact ⟨"", rfl⟩
    | some v =>
      obtain ⟨s, rfl⟩ := hroute v hlr
      exact ⟨s, rfl⟩
  obtain ⟨dl, hd⟩ := hd
  obtain ⟨rs, hr⟩ := hr
  exact ⟨_, processItem_dict l dl rs a ha hd hr⟩

/-- A list of well shaped entries is processed without an exception. -/
theorem processList_ok {items : List PyVal} (h : ∀ it ∈ items, wellShapedEntry it) :
    ∃ rs, processList items = Except.ok rs := by
  induction items with
  | nil => exact ⟨[], rfl⟩
  | cons it rest ih =>
    obtain ⟨r, hr⟩ := processItem_ok (h it (by simp))
    obtain ⟨rs, hrs⟩ := ih (fun x hx => h x (by simp [hx]))
    exact ⟨r :: rs, by simp [processList, hr, hrs, bind, Except.bind]⟩

/-- A well shaped payload normalizes without an exception. -/
theorem process_uz_data_ok {v : PyVal} (h : wellShapedBoard v) :
    ∃ p, process_uz_data v = Except.ok p := by
  rcases h with hf | ⟨l, rfl, hstation, hdeps⟩
  · exact ⟨([], .str "Connection Failed"), by simp [process_uz_data, hf]⟩
  · cases htb : pyTruthy (PyVal.dict l) with
    | false => exact ⟨([], .str "Connection Failed"), by simp [process_uz_data, htb]⟩
    | true =>
      have hso : ∃ sl, (l.lookup "station").getD (.dict []) = PyVal.dict sl := by
        cases hls : l.lookup "station" with
        | none => exact ⟨[], rfl⟩
        | some w =>
          obtain ⟨sl, rfl⟩ := hstation w hls
          exact ⟨sl, rfl⟩
      obtain ⟨sl, hs⟩ := hso
      cases hld : (l.lookup "departures").getD (.list []) with
      | list items =>
        have hws : ∀ it ∈ items, wellShapedEntry it := by
          cases hlk : l.lookup "departures" with
          | none =>
            rw [hlk] at hld
            simp only [Option.getD_none] at hld
            cases hld
            intro it hit
            cases hit
          | some w =>
            rw [hlk] at hld
            simp only [Option.getD_some] at hld
            cases hld
            exact hdeps items hlk
        obtain ⟨recs, hrecs⟩ := processList_ok hws
        exact ⟨(sortServices recs, (sl.lookup "name").getD (.str "UZ Station (Unknown)")),
          by simp [process_uz_data, htb, PyVal.get, hs, hld, hrecs, bind, Except.bind]⟩
      | none =>
        exact ⟨([], (sl.lookup "name").getD (.str "UZ Station (Unknown)")),
          by simp [process_uz_data, htb, PyVal.get, hs, hld, bind, Except.bind]⟩
      | bool b =>
        exact ⟨([], (sl.lookup "name").getD (.str "UZ Station (Unknown)")),
          by simp [process_uz_data, htb, PyVal.get, hs, hld, bind, Except.bind]⟩
      | num q =>
        exact ⟨([], (sl.lookup "name").getD (.str "UZ Station (Unknown)")),
          by simp [process_uz_data, htb, PyVal.get, hs, hld, bind, Except.bind]⟩
      | str s =>
        exact ⟨([], (sl.lookup "name").getD (.str "UZ Station (Unknown)")),
          by simp [process_uz_data, htb, PyVal.get, hs, hld, bind, Except.bind]⟩
      | dict d2 =>
        exact ⟨([], (sl.lookup "name").getD (.str "UZ Station (Unknown)")),
          by simp [process_uz_data, htb, PyVal.get, hs, hld, bind, Except.bind]⟩

/-- C2 counterexample: a payload whose station key is present but holds None
defeats the .get defaults, and the AttributeError of None.get propagates out
of loadDeparturesForStation to the caller; and a payload whose departure
carries the timestamp 10^20 (beyond the platform time_t span) makes the
conversion raise an OverflowError that the except ValueError of trains.py
line 103 does not catch, likewise escaping the loader.  Both refute the claim
that no input can make an exception propagate. -/
theorem c2_counterexample :
    (loadDeparturesForStation (some (.dict [("station", .none)]))
      (.dict [("departureStation", .str "1")]) .none (.num 5)).fst
      = .error .attributeError ∧
    (loadDeparturesForStation
      (some (.dict [("departures",
        .list [.dict [("time", .num 100000000000000000000)]])]))
      (.dict [("departureStation", .str "1")]) .none (.num 5)).fst
      = .error .overflowError :=
  ⟨rfl, rfl⟩

/-- C2 amended: the loader returns a well typed pair for every configuration
and rows argument, provided the fetched payload is well shaped: its station
and per entry destination descriptors, when present, are dicts, route fields,
when present, are strings, and per entry timestamps derive without an
uncaught error (absent, non-numeric, or within the platform convertible
range).  Outside that shape an AttributeError or an uncaught OverflowError
can propagate, as the counterexamples show. -/
theorem c2_amended_no_exception (net : Option PyVal) (cfg apiKey rows : PyVal)
    (hnet : ∀ b, net = some b → wellShapedBoard b) :
    ∃ p, (loadDeparturesForStation net cfg apiKey rows).fst = Except.ok p := by
  have hnone : wellShapedBoard PyVal.none := Or.inl rfl
  cases cfg with
  | dict l =>
    cases htb : pyTruthy ((l.lookup "departureStation").getD .none) with
    | false =>
      exact ⟨([], .str "Config Error"), by simp [loadDeparturesForStation, htb]⟩
    | true =>
      have hjd : ∀ sid : PyVal, wellShapedBoard
          (match (get_uz_board net sid).fst with
           | some v => v
           | Option.none => PyVal.none) := by
        intro sid
        cases sid with
        | str s =>
          by_cases hdig : pyIsdigit s = true
          · cases net with
            | none => simpa [get_uz_board, hdig] using hnone
            | some b => simpa [get_uz_board, hdig] using hnet b rfl
          · simpa [get_uz_board, hdig] using hnone
        | none => simpa [get_uz_board] using hnone
        | bool b => simpa [get_uz_board] using hnone
        | num q => simpa [get_uz_board] using hnone
        | list xs => simpa [get_uz_board] using hnone
        | dict d2 => simpa [get_uz_board] using hnone
      obtain ⟨⟨deps, name⟩, hp⟩ :=
        process_uz_data_ok (hjd ((l.lookup "departureStation").getD PyVal.none))
      exact ⟨(pySliceTo deps (rowLimit rows), name),
        by simp [loadDeparturesForStation, htb, hp]⟩
  | none => exact ⟨([], .str "Config Error"), rfl⟩
  | bool b => exact ⟨([], .str "Config Error"), rfl⟩
  | num q => exact ⟨([], .str "Config Error"), rfl⟩
  | str s => exact ⟨([], .str "Config Error"), rfl⟩
  | list xs => exact ⟨([], .str "Config Error"), rfl⟩

/-- C2 amended witness: a failed fetch with an empty configuration dict. -/
theorem c2_amended_no_exception_witness :
    ∃ p, (loadDeparturesForStation Option.none (.dict []) .none .none).fst = Except.ok p :=
  c2_amended_no_exception Option.none (.dict []) .none .none (fun b hb => nomatch hb)

/-- C9: normalization sorts the produced records by the aimed departure time
string: the output is the stable insertion sort of the per entry records, it
is sorted under the lexicographic key order and is a permutation of them (so
sorting itself never drops a record and never raises: string keys always
compare, so the except TypeError guard of lines 169-172 is dead); and the
mixed valid and placeholder key lists of the claim sort deterministically,
the placeholder first. -/
theorem c9_sorted_output (items : List PyVal) (rs : List Rec)
    (h : processList items = Except.ok rs) :
    process_uz_data (.dict [("departures", .list items)])
      = Except.ok (sortServices rs, .str "UZ Station (Unknown)") ∧
    (sortServices rs).Sorted recLe ∧
    (sortServices rs).Perm rs ∧
    sortServices
      [[("aimed_departure_time", PyVal.str "08:15")],
       [("aimed_departure_time", PyVal.str "--:--")],
       [("aimed_departure_time", PyVal.str "09:00")]]
      = [[("aimed_departure_time", PyVal.str "--:--")],
         [("aimed_departure_time", PyVal.str "08:15")],
         [("aimed_departure_time", PyVal.str "09:00")]] := by
  refine ⟨?_, List.sorted_insertionSort recLe rs, List.perm_insertionSort recLe rs, rfl⟩
  have hstep : process_uz_data (.dict [("departures", .list items)])
      = (processList items).bind
          (fun recs => Except.ok (sortServices recs, PyVal.str "UZ Station (Unknown)")) := rfl
  rw [hstep, h]
  rfl

/-- C9 witness: the empty departures list normalizes to the empty sorted
output. -/
theorem c9_sorted_output_witness :
    process_uz_data (.dict [("departures", .list [])])
      = Except.ok (sortServices [], .str "UZ Station (Unknown)") ∧
    (sortServices ([] : List Rec)).Perm [] :=
  ⟨(c9_sorted_output [] [] rfl).1, (c9_sorted_output [] [] rfl).2.2.1⟩

/-- processItem succeeds only on dict entries whose timestamp derives without
an uncaught error, whose destination field holds a dict (or is absent) and
whose route field holds a string (or is absent). -/
theorem processItem_ok_inv {item : PyVal} {r : Rec} (h : processItem item = Except.ok r) :
    ∃ l a dl rs, item = PyVal.dict l ∧
      aimedOf ((l.lookup "time").getD .none) = Except.ok a ∧
      (l.lookup "destination").getD (.dict []) = PyVal.dict dl ∧
      (l.lookup "route").getD (.str "") = PyVal.str rs := by
  cases item with
  | dict l =>
    cases ha : aimedOf ((l.lookup "time").getD .none) with
    | error e => simp [processItem, PyVal.get, ha, bind, Except.bind] at h
    | ok a =>
      cases hd : (l.lookup "destination").getD (.dict []) with
      | dict dl =>
        cases hr : (l.lookup "route").getD (.str "") with
        | str rs => exact ⟨l, a, dl, rs, rfl, ha, hd, hr⟩
        | none => simp [processItem, PyVal.get, ha, hd, hr, bind, Except.bind] at h
        | bool b => simp [processItem, PyVal.get, ha, hd, hr, bind, Except.bind] at h
        | num q => simp [processItem, PyVal.get, ha, hd, hr, bind, Except.bind] at h
        | list xs => simp [processItem, PyVal.get, ha, hd, hr, bind, Except.bind] at h
        | dict d2 => simp [processItem, PyVal.get, ha, hd, hr, bind, Except.bind] at h
      | none => simp [processItem, PyVal.get, ha, hd, bind, Except.bind] at h
      | bool b => simp [processItem, PyVal.get, ha, hd, bind, Except.bind] at h
      | num q => simp [processItem, PyVal.get, ha, hd, bind, Except.bind] at h
      | str s => simp [processItem, PyVal.get, ha, hd, bind, Except.bind] at h
      | list xs => simp [processItem, PyVal.get, ha, hd, bind, Except.bind] at h
  | none => simp [processItem, PyVal.get, bind, Except.bind] at h
  | bool b => simp [processItem, PyVal.get, bind, Except.bind] at h
  | num q => simp [processItem, PyVal.get, bind, Except.bind] at h
  | str s => simp [processItem, PyVal.get, bind, Except.bind] at h
  | list xs => simp [processItem, PyVal.get, bind, Except.bind] at h

/-- Every record processItem accepts carries exactly the seven keys. -/
theorem processItem_keys {item : PyVal} {r : Rec} (h : processItem item = Except.ok r) :
    r.map Prod.fst = recKeys := by
  obtain ⟨l, a, dl, rs, rfl, ha, hd, hr⟩ := processItem_ok_inv h
  rw [processItem_dict l dl rs a ha hd hr] at h
  cases h
  rfl

/-- The loop produces exactly one record per raw entry. -/
theorem processList_length {items : List PyVal} {rs : List Rec}
    (h : processList items = Except.ok rs) : rs.length = items.length := by
  induction items generalizing rs with
  | nil =>
    cases h
    rfl
  | cons it rest ih =>
    cases hr : processItem it with
    | error e =>
      have hcomp : processList (it :: rest) = Except.error e := by
        simp [processList, hr, bind, Except.bind]
      rw [hcomp] at h
      cases h
    | ok r0 =>
      cases hrest : processList rest with
      | error e =>
        have hcomp : processList (it :: rest) = Except.error e := by
          simp [processList, hr, hrest, bind, Except.bind]
        rw [hcomp] at h
        cases h
      | ok rs2 =>
        have hcomp : processList (it :: rest) = Except.ok (r0 :: rs2) := by
          simp [processList, hr, hrest, bind, Except.bind]
        rw [hcomp] at h
        cases h
        simp [ih hrest]

/-- Every record the loop produces carries exactly the seven keys. -/
theorem processList_keys {items : List PyVal} {rs : List Rec}
    (h : processList items = Except.ok rs) : ∀ r ∈ rs, r.map Prod.fst = recKeys := by
  induction items generalizing rs with
  | nil =>
    cases h
    intro r hr
    cases hr
  | cons it rest ih =>
    cases hr : processItem it with
    | error e =>
      have hcomp : processList (it :: rest) = Except.error e := by
        simp [processList, hr, bind, Except.bind]
      rw [hcomp] at h
      cases h
    | ok r0 =>
      cases hrest : processList rest with
      | error e =>
        have hcomp : processList (it :: rest) = Except.error e := by
          simp [processList, hr, hrest, bind, Except.bind]
        rw [hcomp] at h
        cases h
      | ok rs2 =>
        have hcomp : processList (it :: rest) = Except.ok (r0 :: rs2) := by
          simp [processList, hr, hrest, bind, Except.bind]
        rw [hcomp] at h
        cases h
        intro r hmem
        rcases List.mem_cons.mp hmem with rfl | hmem2
        · exact processItem_keys hr
        · exact ih hrest r hmem2

/-- C10 counterexample: the record of the featureless entry has exactly seven
keys, not eight: no train number field exists, the sentinel N/A appearing
only inside the summary line. -/
theorem c10_counterexample :
    (processItem (.dict [])).map (fun r => r.map Prod.fst) = Except.ok recKeys ∧
    recKeys.length = 7 ∧ (7 : Nat) ≠ 8 ∧
    "train_number" ∉ recKeys ∧ "trainNumber" ∉ recKeys :=
  ⟨rfl, rfl, by decide, by decide, by decide⟩

/-- C10 amended: whenever the loop completes, it yields exactly one record
per dict entry (none dropped), every record carries exactly the seven keys in
insertion order, and the featureless entry yields the full placeholder
record, the train number sentinel N/A appearing inside the summary line. -/
theorem c10_amended_one_record_per_entry (items : List PyVal) (rs : List Rec)
    (h : processList items = Except.ok rs) :
    rs.length = items.length ∧
    (∀ r ∈ rs, r.map Prod.fst = recKeys) ∧
    processItem (.dict []) = Except.ok
      [("aimed_departure_time", .str "--:--"),
       ("expected_departure_time", .str "On time"),
       ("destination_name", .str "Destination Unknown"),
       ("platform", .str ""),
       ("carriages", .num 0),
       ("operator", .str "UZ"),
       ("calling_at_list", .str "Train N/A to Destination Unknown. Ukrainian Railways.")] :=
  ⟨processList_length h, processList_keys h, rfl⟩

/-- C10 amended witness: one featureless entry yields exactly one record. -/
theorem c10_amended_one_record_per_entry_witness :
    ([[("aimed_departure_time", PyVal.str "--:--"),
       ("expected_departure_time", PyVal.str "On time"),
       ("destination_name", PyVal.str "Destination Unknown"),
       ("platform", PyVal.str ""),
       ("carriages", PyVal.num 0),
       ("operator", PyVal.str "UZ"),
       ("calling_at_list", PyVal.str "Train N/A to Destination Unknown. Ukrainian Railways.")]]
      : List Rec).length = [PyVal.dict []].length :=
  (c10_amended_one_record_per_entry [PyVal.dict []] _ rfl).1
